/-
Verification of the pub-quiz session server (src/server.js).

This file gives a shallow embedding of the server's core logic — the text
matcher, the question repository resolution, the session state machine with
its event handlers, the scoring engine, the vote/quorum logic, and the
public broadcast projections — and proves the specification claims about it.

Conventions of the embedding:
- JavaScript objects keyed by strings/numbers become insertion-ordered
  association lists; JS Sets become insertion-ordered duplicate-free lists.
- JS numbers that are used as integers become Nat/Int; the number-question
  comparison (parseFloat) is modelled over exact rationals.
- Handlers are pure functions GameState -> GameState (paired with the list
  of broadcast emissions where a claim is about emissions).
-/
import Mathlib

namespace Quiz

/-- JS whitespace predicate: models String.prototype.trim and the regexp
class backslash-s, restricted to the common ASCII whitespace characters. -/
def jsWhitespace (c : Char) : Bool :=
  c = ' ' || c = '\t' || c = '\n' || c = '\r' || c = '\x0b' || c = '\x0c'

/-- Lowercasing of a character list, modelling String.prototype.toLowerCase
(exact on ASCII, where all claim-relevant strings live). -/
def toLowerList (l : List Char) : List Char := l.map Char.toLower

/-- Trim leading and trailing whitespace, modelling String.prototype.trim. -/
def trimList (l : List Char) : List Char :=
  ((l.dropWhile jsWhitespace).reverse.dropWhile jsWhitespace).reverse

/-- Canonical NFD decomposition, modelling String.prototype.normalize for the
Latin letters with diacritics that the quiz data can contain; identity on all
other characters (exact on ASCII). -/
def decomposeNFD (c : Char) : List Char :=
  match c with
  | 'à' => ['a', '̀']
  | 'á' => ['a', '́']
  | 'â' => ['a', '̂']
  | 'ã' => ['a', '̃']
  | 'ä' => ['a', '̈']
  | 'å' => ['a', '̊']
  | 'è' => ['e', '̀']
  | 'é' => ['e', '́']
  | 'ê' => ['e', '̂']
  | 'ë' => ['e', '̈']
  | 'ì' => ['i', '̀']
  | 'í' => ['i', '́']
  | 'î' => ['i', '̂']
  | 'ï' => ['i', '̈']
  | 'ò' => ['o', '̀']
  | 'ó' => ['o', '́']
  | 'ô' => ['o', '̂']
  | 'õ' => ['o', '̃']
  | 'ö' => ['o', '̈']
  | 'ù' => ['u', '̀']
  | 'ú' => ['u', '́']
  | 'û' => ['u', '̂']
  | 'ü' => ['u', '̈']
  | 'ý' => ['y', '́']
  | 'ÿ' => ['y', '̈']
  | 'ñ' => ['n', '̃']
  | 'ç' => ['c', '̧']
  | _ => [c]

/-- Combining diacritical marks, the range stripped by the source's
replace of the unicode block 0300-036F. -/
def isCombiningMark (c : Char) : Bool :=
  decide (0x300 ≤ c.toNat) && decide (c.toNat ≤ 0x36F)

/-- Collapse every whitespace run to a single space, modelling the source's
global replace of one-or-more whitespace with a single space; the flag
records whether the previous character was part of a whitespace run. -/
def collapseWs : List Char → Bool → List Char
  | [], _ => []
  | c :: rest, prev =>
    if jsWhitespace c then
      if prev then collapseWs rest true else ' ' :: collapseWs rest true
    else c :: collapseWs rest false

/-- normalizeText from server.js: lowercase, trim, NFD-decompose, strip the
combining marks, collapse whitespace runs to single spaces. -/
def normalizeText (text : String) : String :=
  ⟨collapseWs (((trimList (toLowerList text.data)).flatMap decomposeNFD).filter
      (fun c => !isCombiningMark c)) false⟩

/-- Case-insensitive key comparison helper: lowercase a whole string,
modelling key.toLowerCase() comparisons in the source. -/
def lowerStr (s : String) : String := ⟨toLowerList s.data⟩

/-- String trimming, modelling categoryName.trim() in the source. -/
def jsTrim (s : String) : String := ⟨trimList s.data⟩

/-- One pass along row i of the levenshtein matrix: walks the characters of
a together with the tail of the previous row, carrying the diagonal value
(previous row, previous column) and the value just written to the left. -/
def levRowStep (y : Char) : List Char → List Nat → Nat → Nat → List Nat
  | [], _, _, _ => []
  | _ :: _, [], _, _ => []
  | x :: xs, up :: ptail, diag, left =>
    let cur := Nat.min (Nat.min (up + 1) (left + 1)) (diag + (if x = y then 0 else 1))
    cur :: levRowStep y xs ptail up cur

/-- Row i of the levenshtein matrix from row i-1: the first cell is
matrix[i][0] = i, the rest comes from the recurrence. -/
def levRow (a : List Char) (prev : List Nat) (y : Char) : List Nat :=
  match prev with
  | [] => []
  | p0 :: ptail => (p0 + 1) :: levRowStep y a ptail p0 (p0 + 1)

/-- levenshtein from server.js on character lists: the dynamic-programming
matrix built row by row (rows indexed by b, columns by a; row 0 is
0,1,...,|a|), returning matrix[|b|][|a|], the unit-cost
insert/delete/substitute edit distance. -/
def levenshteinL (a b : List Char) : Nat :=
  (b.foldl (levRow a) (List.range (a.length + 1))).getLastD 0

/-- levenshtein on strings, as called by checkAnswer. -/
def levenshtein (a b : String) : Nat := levenshteinL a.data b.data

/-- getAllowedDistance from server.js: typo budget by word length. -/
def getAllowedDistance (wordLength : Nat) : Nat :=
  if wordLength ≤ 4 then 1 else if wordLength ≤ 8 then 2 else 3

/-- Prefix test on character lists (helper for the substring test). -/
def isPrefixL : List Char → List Char → Bool
  | [], _ => true
  | _ :: _, [] => false
  | x :: xs, y :: ys => x = y && isPrefixL xs ys

/-- Contiguous-occurrence test on character lists (helper for includes). -/
def isInfixL (needle : List Char) : List Char → Bool
  | [] => needle.isEmpty
  | y :: ys => isPrefixL needle (y :: ys) || isInfixL needle ys

/-- strIncludes hay needle models hay.includes(needle) in JS: true iff
needle occurs contiguously inside hay. -/
def strIncludes (hay needle : String) : Bool := isInfixL needle.data hay.data

/-- Characters kept by the number branch's replace (digits, dot, minus). -/
def numericChar (c : Char) : Bool := c.isDigit || c = '.' || c = '-'

/-- Strip every character the number branch's regexp removes. -/
def stripNonNumeric (s : String) : String := ⟨s.data.filter numericChar⟩

/-- Decimal digit-list value (helper for the parseFloat model). -/
def digitsToNat (l : List Char) : Nat :=
  l.foldl (fun acc c => acc * 10 + (c.toNat - '0'.toNat)) 0

/-- parseFloat model over exact rationals: optional leading minus sign, then
integer digits, then an optional fractional part after a dot; trailing
characters are ignored; none models NaN. Exact wherever the source's binary
doubles are exact, which covers every comparison the claims mention. -/
def parseFloatModel (s : String) : Option ℚ :=
  let signAndRest := match s.data with
    | '-' :: r => (true, r)
    | l => (false, l)
  let rest := signAndRest.2
  let intPart := rest.takeWhile Char.isDigit
  let rest2 := rest.dropWhile Char.isDigit
  let fracPart := match rest2 with
    | '.' :: r => r.takeWhile Char.isDigit
    | _ => []
  if intPart.isEmpty && fracPart.isEmpty then none
  else
    let mag : ℚ := (digitsToNat intPart : ℚ) + (digitsToNat fracPart : ℚ) / (10 ^ fracPart.length : ℚ)
    some (if signAndRest.1 then -mag else mag)

/-- Model of the JS expression (opt or-else dflt) on strings, where the empty
string is falsy. -/
def jsOrStr (o : Option String) (dflt : String) : String :=
  match o with
  | some s => if s = "" then dflt else s
  | none => dflt

/-- Model of (opt or-else null) on strings: empty string collapses to null. -/
def jsStrOrNull (o : Option String) : Option String :=
  match o with
  | some s => if s = "" then none else some s
  | none => none

/-- Model of (opt or-else dflt) on numbers, where 0 is falsy. -/
def jsNatOr (o : Option Nat) (dflt : Nat) : Nat :=
  match o with
  | some n => if n = 0 then dflt else n
  | none => dflt

/-- Model of (opt or-else null) on numbers: 0 collapses to null. -/
def jsRatOrNull (o : Option ℚ) : Option ℚ :=
  match o with
  | some t => if t = 0 then none else some t
  | none => none

/-- Model of (opt or-else 0) on numbers. -/
def jsRatOr (o : Option ℚ) (dflt : ℚ) : ℚ :=
  match o with
  | some t => if t = 0 then dflt else t
  | none => dflt

/-- Question record as the server holds it: id, optional type tag (default
text), prompt, correct answer, and the optional per-type fields. -/
structure Question where
  id : Nat
  type : Option String := none
  question : String := ""
  answer : String := ""
  options : Option (List String) := none
  tolerance : Option ℚ := none
  acceptedAnswers : Option (List String) := none
  difficulty : Option Nat := none
  songTitle : Option String := none
  artist : Option String := none
  clipTitle : Option String := none
  source : Option String := none
  imageUrl : Option String := none
  imageCredit : Option String := none
  youtubeId : Option String := none
  playSeconds : Option Nat := none
deriving DecidableEq, Repr

/-- checkAnswer from server.js: fuzzy answer matching. Multiple choice is an
exact normalized match; number questions compare parsed values within the
tolerance; text questions accept an exact match, a Levenshtein match within
the length-based budget, a match against any accepted alternate (exact,
Levenshtein, or alternate-contains-submission with length at least 4), or a
containment either way when the submission has at least 4 characters. -/
def checkAnswer (playerAnswer : String) (question : Question) : Bool :=
  let normalizedPlayer := normalizeText playerAnswer
  let questionType := jsOrStr question.type "text"
  if questionType = "multiple-choice" then
    normalizedPlayer == normalizeText question.answer
  else if questionType = "number" then
    let playerNum := parseFloatModel (stripNonNumeric normalizedPlayer)
    let correctNum := parseFloatModel (stripNonNumeric question.answer)
    let tolerance := jsRatOr question.tolerance 0
    match playerNum, correctNum with
    | some p, some c => decide (|p - c| ≤ tolerance)
    | _, _ => false
  else
    let correctAnswer := normalizeText question.answer
    (normalizedPlayer == correctAnswer) ||
    decide (levenshtein normalizedPlayer correctAnswer ≤ getAllowedDistance correctAnswer.length) ||
    (match question.acceptedAnswers with
      | some alts => alts.any (fun alt =>
          let normalizedAlt := normalizeText alt
          (normalizedPlayer == normalizedAlt) ||
          decide (levenshtein normalizedPlayer normalizedAlt ≤ getAllowedDistance normalizedAlt.length) ||
          (strIncludes normalizedAlt normalizedPlayer && decide (4 ≤ normalizedPlayer.length)))
      | none => false) ||
    (decide (4 ≤ normalizedPlayer.length) &&
      (strIncludes correctAnswer normalizedPlayer || strIncludes normalizedPlayer correctAnswer))

/-- Ordered-set insertion, modelling JS Set.prototype.add: append the
element if it is not already a member. -/
def insertSet [DecidableEq α] (x : α) (l : List α) : List α :=
  if x ∈ l then l else l ++ [x]

/-- Association-list update, modelling assignment to an object key: replace
the value in place if the key exists, otherwise append the pair. -/
def setAssoc [DecidableEq κ] (k : κ) (v : β) : List (κ × β) → List (κ × β)
  | [] => [(k, v)]
  | (k', v') :: rest => if k' = k then (k', v) :: rest else (k', v') :: setAssoc k v rest

/-- In-place update of the element at one position, modelling mutation of an
array cell; lists shorter than the index are unchanged. -/
def listModify (f : α → α) : Nat → List α → List α
  | _, [] => []
  | 0, a :: as => f a :: as
  | n + 1, a :: as => a :: listModify f n as

/-- Player record from the game state: answers by question id, score, and
the set of question ids the player has blind-bet on. -/
structure Player where
  answers : List (Nat × String) := []
  score : Int := 0
  bets : List Nat := []
deriving DecidableEq, Repr

/-- A suggested category: canonical key (first-seen casing), the set of
suggester names, and any admin-entered questions. -/
structure SuggestedCategory where
  name : String
  suggesters : List String
  questions : List Question := []
deriving DecidableEq, Repr

/-- A selected category, snapshotted at quiz start. -/
structure SelectedCategory where
  name : String
  questions : List Question
  suggesters : List String
deriving DecidableEq, Repr

/-- A category record of the external question repository
(questions.json). -/
structure FileCategory where
  name : String
  questions : List Question
deriving DecidableEq, Repr

/-- The session state singleton from server.js. -/
structure GameState where
  phase : String
  suggestedCategories : List SuggestedCategory
  selectedCategories : List SelectedCategory
  currentCategoryIndex : Nat
  currentQuestionIndex : Int
  showAnswer : Bool
  players : List (String × Player)
  skipVotes : List String
  quizStarted : Bool
  correctPlayers : List String
deriving DecidableEq, Repr

/-- The initial game state, also produced wholesale by resetQuiz. -/
def initialGameState : GameState where
  phase := "lobby"
  suggestedCategories := []
  selectedCategories := []
  currentCategoryIndex := 0
  currentQuestionIndex := -1
  showAnswer := false
  players := []
  skipVotes := []
  quizStarted := false
  correctPlayers := []

/-- Broadcast and unicast emissions the modelled handlers produce. -/
inductive Emit where
  | gameStateB
  | playerUpdate
  | skipVoteUpdate
  | categoryVotesUpdate
  | categoryApproved (categoryName : String)
  | errorMsg (message : String)
  | answerSubmitted (playerName : String) (questionId : Nat)
  | betPlaced (questionId : Nat)
deriving DecidableEq, Repr

/-- The question currently on display: the expression
category.questions at currentQuestionIndex (with the optional-chaining and
out-of-range/negative-index accesses yielding none), used by toggleAnswer,
getPublicGameState and getPlayersWithScores. -/
def activeQuestion (s : GameState) : Option Question :=
  match s.selectedCategories.get? s.currentCategoryIndex with
  | some c => if 0 ≤ s.currentQuestionIndex then c.questions.get? s.currentQuestionIndex.toNat else none
  | none => none

/-- findQuestionsForCategory from server.js: case-insensitive exact name
match against the external category list; every returned record gets its
defaults applied (type text, playSeconds 10, absent media fields null). -/
def findQuestionsForCategory (categoryName : String) (allCategories : List FileCategory) : List Question :=
  match allCategories.find? (fun c => lowerStr c.name == lowerStr categoryName) with
  | some m => m.questions.map (fun q =>
      { q with
        type := some (jsOrStr q.type "text")
        options := q.options
        tolerance := jsRatOrNull q.tolerance
        songTitle := jsStrOrNull q.songTitle
        artist := jsStrOrNull q.artist
        clipTitle := jsStrOrNull q.clipTitle
        source := jsStrOrNull q.source
        imageUrl := jsStrOrNull q.imageUrl
        imageCredit := jsStrOrNull q.imageCredit
        youtubeId := jsStrOrNull q.youtubeId
        playSeconds := some (jsNatOr q.playSeconds 10) })
  | none => []

/-- getQuestionDifficulty from server.js: an explicit non-zero difficulty
wins, otherwise the rank is derived from the question type. -/
def getQuestionDifficulty (q : Question) : Nat :=
  let byType :=
    match jsOrStr q.type "text" with
    | "multiple-choice" => 1
    | "number" => 2
    | "music" => 2
    | "video" => 2
    | "image" => 2
    | "text" => 3
    | _ => 2
  match q.difficulty with
  | some d => if d = 0 then byType else d
  | none => byType

/-- Stable insertion keeping earlier-input elements ahead of later ties:
x lands in front of the first element y with p x y (p x y reads as: x may
sit before y). Helper for the stable-sort model. -/
def insBefore (p : α → α → Bool) (x : α) : List α → List α
  | [] => [x]
  | y :: ys => if p x y then x :: y :: ys else y :: insBefore p x ys

/-- Model of Array.prototype.sort with a comparator: the unique stable order,
realized as an insertion sort processing the input front to back. An element
x goes before y exactly when p x y, so stability requires p x y on ties. -/
def sortStable (p : α → α → Bool) : List α → List α
  | [] => []
  | x :: xs => insBefore p x (sortStable p xs)

/-- checkCategoryThreshold from server.js: scan every suggested category and
emit an approval for each one whose suggester set has size exactly 3. -/
def checkCategoryThreshold (s : GameState) : List Emit :=
  s.suggestedCategories.filterMap (fun c =>
    if c.suggesters.length = 3 then some (Emit.categoryApproved c.name) else none)

/-- Add a suggester to the first category whose key matches
case-insensitively, modelling the find-existing-key-then-add path. -/
def addSuggester (pn nn : String) : List SuggestedCategory → List SuggestedCategory
  | [] => []
  | c :: cs =>
    if lowerStr c.name == lowerStr nn then
      { c with suggesters := insertSet pn c.suggesters } :: cs
    else c :: addSuggester pn nn cs

/-- suggestCategory handler: only in the category-voting phase and only for a
name that is non-empty after trimming; adds the player to an existing
case-insensitive match or creates a new category, then rebroadcasts the vote
summary and runs the threshold check. -/
def suggestCategory (s : GameState) (playerName categoryName : String) : GameState × List Emit :=
  if s.phase ≠ "category-voting" then (s, [])
  else
    let normalizedName := jsTrim categoryName
    if normalizedName = "" then (s, [])
    else
      let s1 :=
        if s.suggestedCategories.any (fun c => lowerStr c.name == lowerStr normalizedName) then
          { s with suggestedCategories := addSuggester playerName normalizedName s.suggestedCategories }
        else
          { s with suggestedCategories :=
              s.suggestedCategories ++ [{ name := normalizedName, suggesters := [playerName] }] }
      (s1, Emit.categoryVotesUpdate :: checkCategoryThreshold s1)

/-- submitAnswer handler: stores the answer under the question id whenever
the player name is present in the roster; otherwise nothing happens and
nothing is emitted. -/
def submitAnswer (s : GameState) (playerName : String) (questionId : Nat) (answer : String) :
    GameState × List Emit :=
  match List.lookup playerName s.players with
  | some p =>
    ({ s with players := setAssoc playerName { p with answers := setAssoc questionId answer p.answers } s.players },
     [Emit.answerSubmitted playerName questionId, Emit.playerUpdate])
  | none => (s, [])

/-- The per-player scoring step of toggleAnswer: a player with no stored
answer (or the falsy empty string) is skipped; a correct answer gains 1, or
2 with a bet on this question id; an incorrect answer with a bet loses 1.
The second component records whether the player was marked correct. -/
def scorePlayer (q : Question) (p : Player) : Player × Bool :=
  match List.lookup q.id p.answers with
  | none => (p, false)
  | some playerAnswer =>
    if playerAnswer = "" then (p, false)
    else
      let isCorrect := checkAnswer playerAnswer q
      let hasBet := decide (q.id ∈ p.bets)
      if isCorrect then
        ({ p with score := p.score + (if hasBet then 2 else 1) }, true)
      else if hasBet then ({ p with score := p.score - 1 }, false)
      else (p, false)

/-- toggleAnswer handler: flips the reveal flag; on a show-to-hide flip it
only clears the correct-player set; on a hide-to-show flip it clears the
correct-player set and, when a question is active, applies the scoring step
to every player and records who was correct. -/
def toggleAnswer (s : GameState) : GameState :=
  if s.showAnswer then
    { s with showAnswer := false, correctPlayers := [] }
  else
    match activeQuestion s with
    | none => { s with showAnswer := true, correctPlayers := [] }
    | some q =>
      let scored := s.players.map (fun np => (np.1, scorePlayer q np.2))
      { s with
        showAnswer := true
        players := scored.map (fun x => (x.1, x.2.1))
        correctPlayers := (scored.filter (fun x => x.2.2)).map (fun x => x.1) }

/-- skipToNextCategory from server.js: advance the category (resetting the
question index, hiding the answer and clearing skip votes) when more
categories remain, otherwise finish the quiz. -/
def skipToNextCategory (s : GameState) : GameState :=
  if s.currentCategoryIndex < s.selectedCategories.length - 1 then
    { s with currentCategoryIndex := s.currentCategoryIndex + 1, currentQuestionIndex := 0,
             showAnswer := false, skipVotes := [] }
  else
    { s with phase := "finished", currentQuestionIndex := -1 }

/-- Skip-vote status record broadcast by the server. -/
structure SkipVoteStatus where
  skipVoteCount : Nat
  totalPlayers : Nat
  votesNeeded : Nat
  mandatoryQuestions : Int
  questionsAnswered : Int
  canSkipYet : Bool
  shouldSkip : Bool
  voters : List String
deriving DecidableEq, Repr

/-- getSkipVoteStatus from server.js: majority quorum (floor of half the
roster plus one) and the minimum-questions gate (min of suggester-count
minus 2 and 5, with a fallback of 3 suggesters when the current category or
its suggester list is missing/empty). -/
def getSkipVoteStatus (s : GameState) : SkipVoteStatus :=
  let totalPlayers := s.players.length
  let skipVoteCount := s.skipVotes.length
  let votesNeeded := totalPlayers / 2 + 1
  let categoryVotes : Int :=
    match s.selectedCategories.get? s.currentCategoryIndex with
    | some c => if c.suggesters.length = 0 then 3 else (c.suggesters.length : Int)
    | none => 3
  let mandatoryQuestions := min (categoryVotes - 2) 5
  let questionsAnswered := s.currentQuestionIndex + 1
  let canSkipYet := decide (mandatoryQuestions ≤ questionsAnswered)
  { skipVoteCount := skipVoteCount
    totalPlayers := totalPlayers
    votesNeeded := votesNeeded
    mandatoryQuestions := mandatoryQuestions
    questionsAnswered := questionsAnswered
    canSkipYet := canSkipYet
    shouldSkip := decide (0 < totalPlayers) && decide (votesNeeded ≤ skipVoteCount) && canSkipYet
    voters := s.skipVotes }

/-- voteSkipCategory handler: a joined player in the playing phase adds a
skip vote; when the freshly computed status says the quorum and the gate are
both met the category is skipped at once. The boolean records whether the
skip fired. -/
def voteSkipCategory (s : GameState) (playerName : String) : GameState × Bool :=
  if (List.lookup playerName s.players).isSome && (s.phase == "playing") then
    let s1 := { s with skipVotes := insertSet playerName s.skipVotes }
    let status := getSkipVoteStatus s1
    if status.shouldSkip then (skipToNextCategory s1, true) else (s1, false)
  else (s, false)

/-- removeSkipVote handler: a joined player's vote is deleted from the skip
set; nothing else changes and no skip logic runs. -/
def removeSkipVote (s : GameState) (playerName : String) : GameState :=
  if (List.lookup playerName s.players).isSome then
    { s with skipVotes := s.skipVotes.erase playerName }
  else s

/-- resetQuiz handler: the whole session state is replaced by the initial
lobby state. -/
def resetQuiz (_s : GameState) : GameState := initialGameState

/-- qualifiedCategories step of startQuiz: the suggested categories with at
least 3 suggesters, with questions resolved from the in-memory list first
and otherwise from the external repository by name. -/
def qualifiedCategories (s : GameState) (fileCats : List FileCategory) : List SelectedCategory :=
  (s.suggestedCategories.filter (fun c => 3 ≤ c.suggesters.length)).map (fun c =>
    let questions := if c.questions.length = 0 then findQuestionsForCategory c.name fileCats else c.questions
    { name := c.name, questions := questions, suggesters := c.suggesters })

/-- The comparator of startQuiz on categories: most suggesters first. -/
def byVotesDesc (a b : SelectedCategory) : Bool :=
  decide (b.suggesters.length ≤ a.suggesters.length)

/-- The comparator of startQuiz on questions: easiest difficulty first. -/
def byDifficultyAsc (a b : Question) : Bool :=
  decide (getQuestionDifficulty a ≤ getQuestionDifficulty b)

/-- The per-category question reordering done by startQuiz. -/
def sortQuestionsByDifficulty (c : SelectedCategory) : SelectedCategory :=
  { c with questions := sortStable byDifficultyAsc c.questions }

/-- startQuiz handler: fails (unicast error, state untouched) when no
category has 3 or more suggesters or when none of those has any question
after resolution; otherwise locks in the categories sorted by descending
suggester count (stable on ties), sorts each category's questions ascending
by difficulty, and enters the playing phase at the first question with the
answer hidden and skip votes cleared. -/
def startQuiz (s : GameState) (fileCats : List FileCategory) : GameState × List Emit :=
  let qualified := qualifiedCategories s fileCats
  if qualified.length = 0 then
    (s, [Emit.errorMsg "Geen categorieen met 3+ stemmen!"])
  else
    let categoriesWithQuestions := qualified.filter (fun c => 0 < c.questions.length)
    if categoriesWithQuestions.length = 0 then
      (s, [Emit.errorMsg "Geen categorieen met vragen! Voeg vragen toe in questions.json."])
    else
      let sorted := sortStable byVotesDesc categoriesWithQuestions
      let final := sorted.map sortQuestionsByDifficulty
      ({ s with
          selectedCategories := final
          phase := "playing"
          quizStarted := true
          currentCategoryIndex := 0
          currentQuestionIndex := 0
          showAnswer := false
          skipVotes := [] },
       [Emit.gameStateB, Emit.skipVoteUpdate])

/-- The public question view sent to clients. -/
structure PublicQuestionView where
  id : Nat
  type : String
  question : String
  options : Option (List String)
  tolerance : Option ℚ
  answer : Option String
  songTitle : Option String
  artist : Option String
  clipTitle : Option String
  source : Option String
  imageUrl : Option String
  imageCredit : Option String
  youtubeId : Option String
  playSeconds : Nat
deriving DecidableEq, Repr

/-- The public category view sent to clients. -/
structure PublicCategoryView where
  name : String
  questionCount : Nat
  suggesters : List String
deriving DecidableEq, Repr

/-- The public game-state view sent to clients and returned by the
read-only state endpoint. -/
structure PublicGameState where
  phase : String
  currentCategoryIndex : Nat
  currentCategory : Option PublicCategoryView
  currentQuestionIndex : Int
  currentQuestion : Option PublicQuestionView
  showAnswer : Bool
  totalCategories : Nat
  quizStarted : Bool
  isFinished : Bool
  votesNeededForCategory : Nat
  approvedCategoryCount : Nat
deriving DecidableEq, Repr

/-- Projection of one question to its public view: the answer field carries
the stored answer only when the reveal flag is set, and null otherwise. -/
def publicQuestionView (q : Question) (showAns : Bool) : PublicQuestionView where
  id := q.id
  type := jsOrStr q.type "text"
  question := q.question
  options := q.options
  tolerance := jsRatOrNull q.tolerance
  answer := if showAns then some q.answer else none
  songTitle := jsStrOrNull q.songTitle
  artist := jsStrOrNull q.artist
  clipTitle := jsStrOrNull q.clipTitle
  source := jsStrOrNull q.source
  imageUrl := jsStrOrNull q.imageUrl
  imageCredit := jsStrOrNull q.imageCredit
  youtubeId := jsStrOrNull q.youtubeId
  playSeconds := jsNatOr q.playSeconds 10

/-- getPublicGameState from server.js. -/
def getPublicGameState (s : GameState) : PublicGameState :=
  let category := s.selectedCategories.get? s.currentCategoryIndex
  { phase := s.phase
    currentCategoryIndex := s.currentCategoryIndex
    currentCategory := category.map (fun c =>
      { name := c.name, questionCount := c.questions.length, suggesters := c.suggesters })
    currentQuestionIndex := s.currentQuestionIndex
    currentQuestion := (activeQuestion s).map (fun q => publicQuestionView q s.showAnswer)
    showAnswer := s.showAnswer
    totalCategories := s.selectedCategories.length
    quizStarted := s.quizStarted
    isFinished := decide (s.phase = "finished")
    votesNeededForCategory := 3
    approvedCategoryCount :=
      (s.suggestedCategories.filter (fun c => 3 ≤ c.suggesters.length)).length }

/-- One row of the player list broadcast. -/
structure PlayerView where
  name : String
  score : Int
  answeredCount : Nat
  currentAnswer : Option String
  hasBetOnCurrent : Bool
  hasVotedSkip : Bool
  wasCorrect : Bool
deriving DecidableEq, Repr

/-- getPlayersWithScores from server.js: one view row per player, sorted by
descending score (stable). -/
def getPlayersWithScores (s : GameState) : List PlayerView :=
  let currentQuestion := activeQuestion s
  sortStable (fun a b => decide (b.score ≤ a.score)) (s.players.map (fun np =>
    { name := np.1
      score := np.2.score
      answeredCount := np.2.answers.length
      currentAnswer := match currentQuestion with
        | some q => List.lookup q.id np.2.answers
        | none => none
      hasBetOnCurrent := match currentQuestion with
        | some q => decide (q.id ∈ np.2.bets)
        | none => false
      hasVotedSkip := decide (np.1 ∈ s.skipVotes)
      wasCorrect := decide (np.1 ∈ s.correctPlayers) && s.showAnswer }))

/-- One row of the category-votes broadcast. -/
structure CategoryVoteView where
  name : String
  suggesterCount : Nat
  suggesters : List String
  isApproved : Bool
  questionCount : Nat
deriving DecidableEq, Repr

/-- getCategoryVotesPublic from server.js: a summary per suggested category
(question counts resolved from memory first, then the file), sorted by
descending suggester count. -/
def getCategoryVotesPublic (s : GameState) (fileCats : List FileCategory) : List CategoryVoteView :=
  sortStable (fun a b => decide (b.suggesterCount ≤ a.suggesterCount))
    (s.suggestedCategories.map (fun c =>
      let questionCount :=
        if c.questions.length = 0 then (findQuestionsForCategory c.name fileCats).length
        else c.questions.length
      { name := c.name
        suggesterCount := c.suggesters.length
        suggesters := c.suggesters
        isApproved := decide (3 ≤ c.suggesters.length)
        questionCount := questionCount }))

/-- The score change the scoring rule predicts for one player on reveal of
question q: 0 without a (non-empty) stored answer; otherwise +1 when correct
(+2 with a bet on this question id), -1 when incorrect with a bet, 0 when
incorrect without a bet. -/
def claimScoreDelta (q : Question) (p : Player) : Int :=
  match List.lookup q.id p.answers with
  | none => 0
  | some a =>
    if a = "" then 0
    else if checkAnswer a q then (if q.id ∈ p.bets then 2 else 1)
    else if q.id ∈ p.bets then -1 else 0

/-- The identity of a selected category apart from its question order. -/
def catKey (c : SelectedCategory) : String × List String := (c.name, c.suggesters)

/-- Replace the stored correct answer of the question at the given position
of the given category, leaving every other part of the state untouched:
two states s and setActiveAnswer s v differ only in the active question's
stored answer value. -/
def setAnswerInCategory (v : String) (qIdx : Int) (c : SelectedCategory) : SelectedCategory :=
  if 0 ≤ qIdx then
    { c with questions := listModify (fun q => { q with answer := v }) qIdx.toNat c.questions }
  else c

/-- Change only the active question's stored correct-answer value. -/
def setActiveAnswer (s : GameState) (v : String) : GameState :=
  { s with selectedCategories :=
      (listModify (setAnswerInCategory v s.currentQuestionIndex) s.currentCategoryIndex
        s.selectedCategories) }

/-- Process a sequence of suggestCategory events, accumulating every
emission in order. -/
def runSuggestEvents (evs : List (String × String)) (s : GameState) : GameState × List Emit :=
  evs.foldl (fun acc ev =>
    let r := suggestCategory acc.1 ev.1 ev.2
    (r.1, acc.2 ++ r.2)) (s, [])

/-- Concrete text question with reference answer film (claim C2). -/
def filmQuestion : Question := { id := 1, answer := "film" }

/-- Concrete session state for the C1 witness: one player answered the
active question correctly, one answered wrong holding a bet, one did not
answer. -/
def c1State : GameState :=
  { initialGameState with
      phase := "playing"
      selectedCategories :=
        [{ name := "Movies", questions := [filmQuestion], suggesters := ["P1", "P2", "P3"] }]
      currentCategoryIndex := 0
      currentQuestionIndex := 0
      showAnswer := false
      players :=
        [("Ann", { answers := [(1, "film")] }),
         ("Ben", { answers := [(1, "boek")], bets := [1] }),
         ("Cid", {})] }

/-- The C1 witness state with the answer already revealed (claim C9). -/
def c9State : GameState := { c1State with showAnswer := true }

/-- Voting-phase state with no suggestions yet (claim C4). -/
def c4State : GameState := { initialGameState with phase := "category-voting" }

/-- Lobby state with one joined player (claim C6). -/
def c6State : GameState := { initialGameState with players := [("Alice", {})] }

/-- Playing-phase state with one joined player and one selected category of
three suggesters, on its first question (claim C5). -/
def c5Category : SelectedCategory :=
  { name := "Movies", questions := [filmQuestion], suggesters := ["P1", "P2", "P3"] }

/-- State for the C5 witness. -/
def c5State : GameState :=
  { initialGameState with
      phase := "playing"
      selectedCategories := [c5Category]
      currentCategoryIndex := 0
      currentQuestionIndex := 0
      players := [("P1", {})] }

/-- State for the C7 witness: answer hidden on an active question. -/
def c7State : GameState :=
  { initialGameState with
      phase := "playing"
      selectedCategories :=
        [{ name := "Movies", questions := [filmQuestion], suggesters := ["P1", "P2", "P3"] }]
      currentCategoryIndex := 0
      currentQuestionIndex := 0
      showAnswer := false }

/-- Voting-phase state with one approved suggestion (claim C3 witness). -/
def c3State : GameState :=
  { initialGameState with
      phase := "category-voting"
      suggestedCategories := [{ name := "Movies", suggesters := ["P1", "P2", "P3"] }] }

/-- External repository contents for the C3 witness. -/
def c3File : List FileCategory := [{ name := "movies", questions := [filmQuestion] }]

/-- Voting-phase state for the C10 witness (empty roster). -/
def c10State : GameState := { initialGameState with phase := "category-voting" }

theorem mem_insertSet_self [DecidableEq α] (x : α) (l : List α) : x ∈ insertSet x l := by
  unfold insertSet
  split
  · assumption
  · simp

theorem lookup_setAssoc_self [DecidableEq κ] [BEq κ] [LawfulBEq κ] (k : κ) (v : β)
    (l : List (κ × β)) : List.lookup k (setAssoc k v l) = some v := by
  induction l with
  | nil => simp [setAssoc, List.lookup]
  | cons hd tl ih =>
    by_cases h : hd.1 = k
    · simp [setAssoc, h, List.lookup]
    · have hb : (k == hd.1) = false := beq_eq_false_iff_ne.mpr (Ne.symm h)
      simp [setAssoc, h, List.lookup, ih, hb]

theorem addSuggester_mem (pn nn : String) (l : List SuggestedCategory)
    (h : l.any (fun c => lowerStr c.name == lowerStr nn) = true) :
    ∃ c ∈ addSuggester pn nn l, lowerStr c.name = lowerStr nn ∧ pn ∈ c.suggesters := by
  induction l with
  | nil => simp at h
  | cons hd tl ih =>
    by_cases hh : lowerStr hd.name = lowerStr nn
    · refine ⟨{ hd with suggesters := insertSet pn hd.suggesters }, ?_, hh, ?_⟩
      · simp [addSuggester, hh]
      · exact mem_insertSet_self pn hd.suggesters
    · have h' : tl.any (fun c => lowerStr c.name == lowerStr nn) = true := by
        simpa [hh] using h
      obtain ⟨c, hc, h1, h2⟩ := ih h'
      refine ⟨c, ?_, h1, h2⟩
      simp [addSuggester, hh, hc]

/-- C2 counterexample: with the normalized reference answer film, the text
matcher rejects the submission flim (their Levenshtein distance is 2,
above the length-4 budget of 1, and no other rule applies), contradicting
the claimed acceptance. -/
theorem c2_counterexample :
    normalizeText "film" = "film" ∧
    levenshtein "flim" "film" = 2 ∧
    checkAnswer "flim" filmQuestion = false := by decide

set_option maxHeartbeats 1600000 in
/-- C2 (amended): for reference film, both flim and flams are rejected;
in general a text submission with no accepted alternates is accepted iff it
is an exact normalized match, or its Levenshtein distance to the normalized
reference is within 1 for reference length up to 4, 2 up to 8 and 3 beyond,
or a containment either way holds and the submission has at least 4
characters. -/
theorem c2_fuzzy_text_rule :
    checkAnswer "flim" filmQuestion = false ∧
    checkAnswer "flams" filmQuestion = false ∧
    (∀ (sub : String) (q : Question),
      jsOrStr q.type "text" ≠ "multiple-choice" →
      jsOrStr q.type "text" ≠ "number" →
      q.acceptedAnswers = none →
      (checkAnswer sub q = true ↔
        (normalizeText sub = normalizeText q.answer ∨
         levenshtein (normalizeText sub) (normalizeText q.answer) ≤
           (if (normalizeText q.answer).length ≤ 4 then 1
            else if (normalizeText q.answer).length ≤ 8 then 2 else 3) ∨
         (4 ≤ (normalizeText sub).length ∧
           (strIncludes (normalizeText q.answer) (normalizeText sub) = true ∨
            strIncludes (normalizeText sub) (normalizeText q.answer) = true))))) := by
  refine ⟨by decide, by decide, ?_⟩
  intro sub q hmc hnum hacc
  unfold checkAnswer
  rw [if_neg hmc, if_neg hnum, hacc]
  simp [getAllowedDistance, Bool.or_eq_true, Bool.and_eq_true]
  tauto

/-- C2 witness: the characterization applied at the exact-match input. -/
theorem c2_witness : checkAnswer "film" filmQuestion = true :=
  (c2_fuzzy_text_rule.2.2 "film" filmQuestion (by decide) (by decide) rfl).mpr (Or.inl rfl)

/-- C4: evaluating the code at the failing input. After three distinct
players suggest Movies (approval emitted once, on the third event), a later
suggestCategory event naming a different category re-emits the Movies
approval, because the threshold check scans every category sitting at
exactly 3 suggesters: the approval is emitted twice in total, not once. -/
theorem c4_reapproval_emission :
    ((runSuggestEvents
        [("P1", "Movies"), ("P2", "Movies"), ("P3", "Movies"), ("P1", "Music")]
        c4State).2.count (Emit.categoryApproved "Movies")) = 2 := by decide

/-- C6 counterexample: in the lobby phase (not playing), a submitAnswer
event from the joined player Alice stores the answer and changes the state,
contradicting the claimed silent no-op. -/
theorem c6_counterexample :
    c6State.phase = "lobby" ∧
    (List.lookup "Alice" c6State.players).map Player.answers = some [] ∧
    (List.lookup "Alice" (submitAnswer c6State "Alice" 7 "42").1.players).map Player.answers
      = some [(7, "42")] ∧
    (submitAnswer c6State "Alice" 7 "42").1 ≠ c6State := by decide

/-- C6 (amended): submitAnswer has no phase guard. It is a silent no-op
exactly when the player name is absent from the roster; for a joined player
it stores the answer under the question id in every phase, and in neither
case is an error emitted. -/
theorem c6_no_phase_guard (s : GameState) (pn : String) (qid : Nat) (a : String) :
    (List.lookup pn s.players = none → submitAnswer s pn qid a = (s, [])) ∧
    (∀ p, List.lookup pn s.players = some p →
      List.lookup pn (submitAnswer s pn qid a).1.players
        = some { p with answers := setAssoc qid a p.answers } ∧
      List.lookup qid (setAssoc qid a p.answers) = some a ∧
      (submitAnswer s pn qid a).1.phase = s.phase ∧
      ∀ m, Emit.errorMsg m ∉ (submitAnswer s pn qid a).2) := by
  constructor
  · intro h
    simp [submitAnswer, h]
  · intro p h
    refine ⟨?_, lookup_setAssoc_self qid a p.answers, ?_, ?_⟩
    · simp [submitAnswer, h, lookup_setAssoc_self]
    · simp [submitAnswer, h]
    · intro m
      simp [submitAnswer, h]

/-- C6 witness: the no-op branch applied to a roster without the player. -/
theorem c6_witness : submitAnswer initialGameState "Bob" 1 "x" = (initialGameState, []) :=
  (c6_no_phase_guard initialGameState "Bob" 1 "x").1 rfl

/-- C8: after resetQuiz, every read-only query reports the lobby phase, an
empty player list and an empty category list, whatever the state before. -/
theorem c8_reset_roundtrip (s : GameState) (fileCats : List FileCategory) :
    (getPublicGameState (resetQuiz s)).phase = "lobby" ∧
    getPlayersWithScores (resetQuiz s) = [] ∧
    getCategoryVotesPublic (resetQuiz s) fileCats = [] :=
  ⟨rfl, rfl, rfl⟩

/-- C10: suggestCategory never consults the roster. In the voting phase,
with a name non-empty after trimming, the suggestion of a player name that
has not joined still lands in the (case-insensitively matched or freshly
created) category's suggester set, and the roster itself is untouched. -/
theorem c10_suggest_no_join_required (s : GameState) (pn cn : String)
    (hph : s.phase = "category-voting") (hcn : jsTrim cn ≠ "")
    (_hro : List.lookup pn s.players = none) :
    (∃ c ∈ (suggestCategory s pn cn).1.suggestedCategories,
       lowerStr c.name = lowerStr (jsTrim cn) ∧ pn ∈ c.suggesters) ∧
    (suggestCategory s pn cn).1.players = s.players := by
  unfold suggestCategory
  rw [if_neg (by simp [hph]), if_neg hcn]
  by_cases hany : s.suggestedCategories.any (fun c => lowerStr c.name == lowerStr (jsTrim cn)) = true
  · rw [if_pos hany]
    exact ⟨addSuggester_mem pn (jsTrim cn) s.suggestedCategories hany, rfl⟩
  · rw [if_neg hany]
    refine ⟨⟨{ name := jsTrim cn, suggesters := [pn] }, ?_, rfl, ?_⟩, rfl⟩
    · simp
    · simp

/-- C10 witness: a ghost player's suggestion in a fresh voting state. -/
theorem c10_witness :
    (∃ c ∈ (suggestCategory c10State "Ghost" "Movies").1.suggestedCategories,
       lowerStr c.name = lowerStr (jsTrim "Movies") ∧ "Ghost" ∈ c.suggesters) ∧
    (suggestCategory c10State "Ghost" "Movies").1.players = c10State.players :=
  c10_suggest_no_join_required c10State "Ghost" "Movies" rfl (by decide) rfl

theorem toggleAnswer_shown_eq (s : GameState) (h : s.showAnswer = true) :
    toggleAnswer s = { s with showAnswer := false, correctPlayers := [] } := by
  simp [toggleAnswer, h]

theorem toggleAnswer_hidden_players (s : GameState) (q : Question)
    (hs : s.showAnswer = false) (hq : activeQuestion s = some q) :
    (toggleAnswer s).players = s.players.map (fun np => (np.1, (scorePlayer q np.2).1)) := by
  simp [toggleAnswer, hs, hq]

theorem scorePlayer_spec (q : Question) (p : Player) :
    (scorePlayer q p).1.answers = p.answers ∧ (scorePlayer q p).1.bets = p.bets ∧
    (scorePlayer q p).1.score = p.score + claimScoreDelta q p := by
  unfold scorePlayer claimScoreDelta
  cases hL : List.lookup q.id p.answers with
  | none => simp
  | some a =>
    by_cases ha : a = ""
    · simp [ha]
    · by_cases hc : checkAnswer a q
      · by_cases hb : q.id ∈ p.bets
        · simp [ha, hc, hb]
        · simp [ha, hc, hb]
      · by_cases hb : q.id ∈ p.bets
        · simp [ha, hc, hb]
          omega
        · simp [ha, hc, hb]

/-- C1: a toggleAnswer event taken while the answer is hidden and a question
is active changes every player's score by exactly the claimed amount — +1
for a correct non-empty stored answer, +2 when that player also bet on this
question id, -1 for an incorrect answer with a bet, 0 for an incorrect
answer without a bet, and 0 whenever the stored answer is missing or empty;
names, stored answers and bets are untouched. A toggleAnswer event taken
while the answer is shown changes no player at all. -/
theorem c1_toggleAnswer_scoring (s : GameState) (q : Question)
    (hq : activeQuestion s = some q) :
    (s.showAnswer = false →
      List.Forall₂ (fun (old new : String × Player) =>
        new.1 = old.1 ∧ new.2.answers = old.2.answers ∧ new.2.bets = old.2.bets ∧
        new.2.score = old.2.score + claimScoreDelta q old.2)
        s.players (toggleAnswer s).players) ∧
    (s.showAnswer = true → (toggleAnswer s).players = s.players) := by
  constructor
  · intro hs
    rw [toggleAnswer_hidden_players s q hs hq]
    refine List.forall₂_map_right_iff.mpr (List.forall₂_same.mpr ?_)
    intro np _
    obtain ⟨h1, h2, h3⟩ := scorePlayer_spec q np.2
    exact ⟨rfl, h1, h2, h3⟩
  · intro hs
    rw [toggleAnswer_shown_eq s hs]

/-- C1 witness: the scoring theorem applied at a concrete state with one
correct player, one incorrect bettor and one silent player. -/
theorem c1_witness :
    (c1State.showAnswer = false →
      List.Forall₂ (fun (old new : String × Player) =>
        new.1 = old.1 ∧ new.2.answers = old.2.answers ∧ new.2.bets = old.2.bets ∧
        new.2.score = old.2.score + claimScoreDelta filmQuestion old.2)
        c1State.players (toggleAnswer c1State).players) ∧
    (c1State.showAnswer = true → (toggleAnswer c1State).players = c1State.players) :=
  c1_toggleAnswer_scoring c1State filmQuestion rfl

/-- C9: from a revealed answer, hiding it and revealing it again (two
further toggleAnswer events on the same active question) applies the full
scoring delta a second time — nothing marks the question as already
scored, so correct players gain again and incorrect bettors lose again. -/
theorem c9_rescore_on_retoggle (s : GameState) (q : Question)
    (hs : s.showAnswer = true) (hq : activeQuestion s = some q) :
    List.Forall₂ (fun (old new : String × Player) =>
      new.1 = old.1 ∧ new.2.score = old.2.score + claimScoreDelta q old.2)
      s.players (toggleAnswer (toggleAnswer s)).players := by
  rw [toggleAnswer_shown_eq s hs,
    toggleAnswer_hidden_players { s with showAnswer := false, correctPlayers := [] } q rfl hq]
  refine List.forall₂_map_right_iff.mpr (List.forall₂_same.mpr ?_)
  intro np _
  obtain ⟨_, _, h3⟩ := scorePlayer_spec q np.2
  exact ⟨rfl, h3⟩

/-- C9 witness: the re-scoring theorem applied at the revealed state of the
C1 scenario. -/
theorem c9_witness :
    List.Forall₂ (fun (old new : String × Player) =>
      new.1 = old.1 ∧ new.2.score = old.2.score + claimScoreDelta filmQuestion old.2)
      c9State.players (toggleAnswer (toggleAnswer c9State)).players :=
  c9_rescore_on_retoggle c9State filmQuestion rfl rfl

/-- C5: in the playing phase, a skip vote from a joined player triggers the
automatic category skip exactly when the vote count after adding the vote
reaches floor(playerCount/2)+1 and the questions answered
(currentQuestionIndex+1) reach the gate min(suggesterCount-2, 5) floored at
1 (for a selected category, which always has at least 3 suggesters); a
removeSkipVote event never changes phase, indices or categories. -/
theorem c5_skip_quorum (s : GameState) (pn : String) (c : SelectedCategory)
    (hp : (List.lookup pn s.players).isSome = true)
    (hph : s.phase = "playing")
    (hc : s.selectedCategories.get? s.currentCategoryIndex = some c)
    (hs3 : 3 ≤ c.suggesters.length) :
    ((voteSkipCategory s pn).2 = true ↔
      (s.players.length / 2 + 1 ≤ (insertSet pn s.skipVotes).length ∧
       max 1 (min ((c.suggesters.length : Int) - 2) 5) ≤ s.currentQuestionIndex + 1)) ∧
    (∀ (s2 : GameState) (pn2 : String),
      (removeSkipVote s2 pn2).phase = s2.phase ∧
      (removeSkipVote s2 pn2).currentCategoryIndex = s2.currentCategoryIndex ∧
      (removeSkipVote s2 pn2).currentQuestionIndex = s2.currentQuestionIndex ∧
      (removeSkipVote s2 pn2).selectedCategories = s2.selectedCategories) := by
  constructor
  · have hplen : 0 < s.players.length := by
      cases hpl : s.players with
      | nil => rw [hpl] at hp; simp [List.lookup] at hp
      | cons a as => simp [hpl]
    have key : (voteSkipCategory s pn).2
        = (getSkipVoteStatus { s with skipVotes := insertSet pn s.skipVotes }).shouldSkip := by
      have hb : ((List.lookup pn s.players).isSome && (s.phase == "playing")) = true := by
        rw [hph]; simp [hp]
      unfold voteSkipCategory
      simp only [hb, if_true]
      cases h2 : (getSkipVoteStatus { s with skipVotes := insertSet pn s.skipVotes }).shouldSkip <;>
        simp [h2]
    rw [key]
    have hne : c.suggesters.length ≠ 0 := by omega
    simp only [getSkipVoteStatus, hc, hne, if_false, Bool.and_eq_true, decide_eq_true_eq]
    constructor
    · intro h
      obtain ⟨⟨_, h2⟩, h3⟩ := h
      refine ⟨h2, ?_⟩
      omega
    · intro h
      obtain ⟨h2, h3⟩ := h
      refine ⟨⟨hplen, h2⟩, ?_⟩
      omega
  · intro s2 pn2
    unfold removeSkipVote
    split <;> simp

/-- C5 witness: one joined voter in a one-player roster on the first
question of a three-suggester category meets quorum and gate, so the skip
fires. -/
theorem c5_witness : (voteSkipCategory c5State "P1").2 = true :=
  (c5_skip_quorum c5State "P1" c5Category rfl rfl rfl (by decide)).1.mpr
    ⟨by decide, by decide⟩

theorem listModify_length (f : α → α) (n : Nat) (l : List α) :
    (listModify f n l).length = l.length := by
  induction l generalizing n with
  | nil => cases n <;> rfl
  | cons a as ih => cases n <;> simp [listModify, ih]

theorem listModify_get?_self (f : α → α) (n : Nat) (l : List α) :
    (listModify f n l).get? n = (l.get? n).map f := by
  induction l generalizing n with
  | nil => cases n <;> rfl
  | cons a as ih =>
    cases n with
    | zero => rfl
    | succ m =>
      simp only [listModify, List.get?_cons_succ]
      exact ih m

theorem publicQuestionView_answer_irrelevant (q : Question) (v : String) :
    publicQuestionView { q with answer := v } false = publicQuestionView q false := rfl

/-- C7: whenever the reveal flag is off, the public game-state view carries
null in the question's answer field, and the view is entirely independent of
the stored correct answer: changing only the active question's answer value
leaves the public view identical. -/
theorem c7_answer_hidden (s : GameState) (v : String) (h : s.showAnswer = false) :
    (∀ qv, (getPublicGameState s).currentQuestion = some qv → qv.answer = none) ∧
    getPublicGameState (setActiveAnswer s v) = getPublicGameState s := by
  constructor
  · intro qv hqv
    simp only [getPublicGameState, Option.map_eq_some'] at hqv
    obtain ⟨q, _, rfl⟩ := hqv
    simp [publicQuestionView, h]
  · unfold getPublicGameState activeQuestion setActiveAnswer
    simp only [listModify_get?_self, listModify_length]
    cases hcat : s.selectedCategories.get? s.currentCategoryIndex with
    | none => simp
    | some c =>
      simp only [Option.map_some', h]
      unfold setAnswerInCategory
      by_cases hqi : 0 ≤ s.currentQuestionIndex
      · simp only [hqi, if_true, if_pos hqi, listModify_get?_self, listModify_length]
        cases hq : c.questions.get? s.currentQuestionIndex.toNat with
        | none => simp
        | some q => simp [publicQuestionView]
      · simp [hqi]

/-- C7 witness: the hidden-answer theorem applied at a concrete state with
an active question, replacing the stored answer by another value. -/
theorem c7_witness :
    (∀ qv, (getPublicGameState c7State).currentQuestion = some qv → qv.answer = none) ∧
    getPublicGameState (setActiveAnswer c7State "changed") = getPublicGameState c7State :=
  c7_answer_hidden c7State "changed" rfl

theorem insBefore_perm (p : α → α → Bool) (x : α) (l : List α) :
    (insBefore p x l).Perm (x :: l) := by
  induction l with
  | nil => exact List.Perm.refl _
  | cons y ys ih =>
    unfold insBefore
    split
    · exact List.Perm.refl _
    · exact (List.Perm.cons y ih).trans (List.Perm.swap x y ys)

theorem sortStable_perm (p : α → α → Bool) (l : List α) : (sortStable p l).Perm l := by
  induction l with
  | nil => exact List.Perm.refl _
  | cons x xs ih => exact (insBefore_perm p x (sortStable p xs)).trans (List.Perm.cons x ih)

theorem insBefore_pairwise {r : α → α → Prop} {p : α → α → Bool}
    (htrans : ∀ a b c, r a b → r b c → r a c)
    (h1 : ∀ a b, p a b = true → r a b)
    (h2 : ∀ a b, p a b = false → r b a)
    (x : α) (l : List α) (hl : List.Pairwise r l) :
    List.Pairwise r (insBefore p x l) := by
  induction l with
  | nil => simp [insBefore]
  | cons y ys ih =>
    rw [List.pairwise_cons] at hl
    obtain ⟨hy, hys⟩ := hl
    unfold insBefore
    cases hp : p x y
    · simp only [Bool.false_eq_true, if_false]
      rw [List.pairwise_cons]
      constructor
      · intro z hz
        rcases List.mem_cons.mp ((insBefore_perm p x ys).mem_iff.mp hz) with hz0 | hz'
        · rw [hz0]; exact h2 x y hp
        · exact hy z hz'
      · exact ih hys
    · simp only [if_true]
      rw [List.pairwise_cons]
      constructor
      · intro z hz
        rcases List.mem_cons.mp hz with hz0 | hz'
        · rw [hz0]; exact h1 x y hp
        · exact htrans x y z (h1 x y hp) (hy z hz')
      · exact List.pairwise_cons.mpr ⟨hy, hys⟩

theorem sortStable_pairwise {r : α → α → Prop} {p : α → α → Bool}
    (htrans : ∀ a b c, r a b → r b c → r a c)
    (h1 : ∀ a b, p a b = true → r a b)
    (h2 : ∀ a b, p a b = false → r b a)
    (l : List α) : List.Pairwise r (sortStable p l) := by
  induction l with
  | nil => simp [sortStable]
  | cons x xs ih => exact insBefore_pairwise htrans h1 h2 x _ ih

theorem insBefore_filter_pos (P : α → Bool) (p : α → α → Bool) (x : α)
    (hx : P x = true) (himp : ∀ y, p x y = false → P y = false) (l : List α) :
    (insBefore p x l).filter P = x :: l.filter P := by
  induction l with
  | nil => simp [insBefore, hx]
  | cons y ys ih =>
    unfold insBefore
    cases hp : p x y
    · have hPy := himp y hp
      simp [List.filter_cons, hPy, ih]
    · simp [List.filter_cons, hx]

theorem insBefore_filter_neg (P : α → Bool) (p : α → α → Bool) (x : α)
    (hx : P x = false) (l : List α) :
    (insBefore p x l).filter P = l.filter P := by
  induction l with
  | nil => simp [insBefore, hx]
  | cons y ys ih =>
    unfold insBefore
    cases hp : p x y
    · simp [List.filter_cons, ih]
    · simp [List.filter_cons, hx]

theorem sortStable_filter (P : α → Bool) (p : α → α → Bool)
    (himp : ∀ x y, P x = true → p x y = false → P y = false) (l : List α) :
    (sortStable p l).filter P = l.filter P := by
  induction l with
  | nil => rfl
  | cons x xs ih =>
    unfold sortStable
    cases hx : P x
    · rw [insBefore_filter_neg P p x hx, ih]
      simp [List.filter_cons, hx]
    · rw [insBefore_filter_pos P p x hx (fun y hy => himp x y hx hy), ih]
      simp [List.filter_cons, hx]

/-- C3: startQuiz fails, emitting a user-facing error and leaving the state
untouched, exactly when no suggested category has at least 3 suggesters
with at least one resolved question; on success the phase becomes playing,
both indices reset to 0, the answer is hidden, skip votes are cleared, and
the selected categories are precisely the qualifying set reordered by
descending suggester count — stably, so categories with equal counts keep
their input order — with each category's questions reordered ascending by
difficulty rank. -/
theorem c3_startQuiz_guard_and_success (s : GameState) (fileCats : List FileCategory) :
    (((qualifiedCategories s fileCats).filter (fun c => 0 < c.questions.length)) = [] →
       (startQuiz s fileCats).1 = s ∧ ∃ m, Emit.errorMsg m ∈ (startQuiz s fileCats).2) ∧
    (((qualifiedCategories s fileCats).filter (fun c => 0 < c.questions.length)) ≠ [] →
       (startQuiz s fileCats).1.phase = "playing" ∧
       (startQuiz s fileCats).1.currentCategoryIndex = 0 ∧
       (startQuiz s fileCats).1.currentQuestionIndex = 0 ∧
       (startQuiz s fileCats).1.showAnswer = false ∧
       (startQuiz s fileCats).1.skipVotes = [] ∧
       ((startQuiz s fileCats).1.selectedCategories.map catKey).Perm
         (((qualifiedCategories s fileCats).filter (fun c => 0 < c.questions.length)).map catKey) ∧
       List.Pairwise (fun a b => b.suggesters.length ≤ a.suggesters.length)
         (startQuiz s fileCats).1.selectedCategories ∧
       (∀ k, (((startQuiz s fileCats).1.selectedCategories.filter
                 (fun c => c.suggesters.length = k)).map catKey)
             = ((((qualifiedCategories s fileCats).filter (fun c => 0 < c.questions.length)).filter
                 (fun c => c.suggesters.length = k)).map catKey)) ∧
       (∀ c ∈ (startQuiz s fileCats).1.selectedCategories,
          List.Pairwise (fun a b => getQuestionDifficulty a ≤ getQuestionDifficulty b) c.questions ∧
          ∃ d ∈ (qualifiedCategories s fileCats).filter (fun c => 0 < c.questions.length),
            d.name = c.name ∧ d.suggesters = c.suggesters ∧ c.questions.Perm d.questions)) := by
  constructor
  · intro hempty
    by_cases hq0 : (qualifiedCategories s fileCats).length = 0
    · have heq : startQuiz s fileCats = (s, [Emit.errorMsg "Geen categorieen met 3+ stemmen!"]) := by
        simp only [startQuiz]
        rw [if_pos hq0]
      rw [heq]
      exact ⟨rfl, "Geen categorieen met 3+ stemmen!", by simp⟩
    · have hw0 : ((qualifiedCategories s fileCats).filter
          (fun c => 0 < c.questions.length)).length = 0 := by
        rw [hempty]; rfl
      have heq : startQuiz s fileCats
          = (s, [Emit.errorMsg "Geen categorieen met vragen! Voeg vragen toe in questions.json."]) := by
        simp only [startQuiz]
        rw [if_neg hq0, if_pos hw0]
      rw [heq]
      exact ⟨rfl, "Geen categorieen met vragen! Voeg vragen toe in questions.json.", by simp⟩
  · intro hne
    have h2 : ¬ ((qualifiedCategories s fileCats).filter
        (fun c => 0 < c.questions.length)).length = 0 := by
      rw [List.length_eq_zero]
      exact hne
    have h1 : ¬ (qualifiedCategories s fileCats).length = 0 := by
      intro h0
      apply hne
      rw [List.length_eq_zero.mp h0]
      rfl
    have heq : startQuiz s fileCats
        = ({ s with
              selectedCategories :=
                ((sortStable byVotesDesc
                    ((qualifiedCategories s fileCats).filter
                      (fun c => 0 < c.questions.length))).map sortQuestionsByDifficulty)
              phase := "playing"
              quizStarted := true
              currentCategoryIndex := 0
              currentQuestionIndex := 0
              showAnswer := false
              skipVotes := [] },
           [Emit.gameStateB, Emit.skipVoteUpdate]) := by
      simp only [startQuiz]
      rw [if_neg h1, if_neg h2]
    rw [heq]
    refine ⟨rfl, rfl, rfl, rfl, rfl, ?_, ?_, ?_, ?_⟩
    · rw [List.map_map]
      have hck : catKey ∘ sortQuestionsByDifficulty = catKey := funext fun c => rfl
      rw [hck]
      exact (sortStable_perm _ _).map catKey
    · rw [List.pairwise_map]
      exact @sortStable_pairwise _
        (fun a b => b.suggesters.length ≤ a.suggesters.length) byVotesDesc
        (fun a b c hab hbc => Nat.le_trans hbc hab)
        (fun a b hab => by simp only [byVotesDesc, decide_eq_true_eq] at hab; exact hab)
        (fun a b hab => by
          simp only [byVotesDesc, decide_eq_false_iff_not] at hab; omega)
        _
    · intro k
      rw [List.filter_map, List.map_map]
      have hpk : ((fun c : SelectedCategory => decide (c.suggesters.length = k)) ∘
          sortQuestionsByDifficulty)
          = (fun c : SelectedCategory => decide (c.suggesters.length = k)) := funext fun c => rfl
      have hck : catKey ∘ sortQuestionsByDifficulty = catKey := funext fun c => rfl
      rw [hpk, hck]
      rw [sortStable_filter _ _ ?_]
      intro x y hx hxy
      simp only [decide_eq_true_eq] at hx
      simp only [byVotesDesc, decide_eq_false_iff_not] at hxy
      simp only [decide_eq_false_iff_not]
      omega
    · intro c hc
      obtain ⟨c0, hc0, rfl⟩ := List.mem_map.mp hc
      constructor
      · exact @sortStable_pairwise _
          (fun a b => getQuestionDifficulty a ≤ getQuestionDifficulty b) byDifficultyAsc
          (fun a b c hab hbc => Nat.le_trans hab hbc)
          (fun a b hab => by simp only [byDifficultyAsc, decide_eq_true_eq] at hab; exact hab)
          (fun a b hab => by
            simp only [byDifficultyAsc, decide_eq_false_iff_not] at hab; omega)
          c0.questions
      · exact ⟨c0, (sortStable_perm _ _).subset hc0, rfl, rfl, sortStable_perm _ _⟩

/-- C3 witness: a voting state with one triple-suggested category whose
questions resolve from the repository starts successfully. -/
theorem c3_witness :
    (startQuiz c3State c3File).1.phase = "playing" ∧
    (startQuiz c3State c3File).1.currentCategoryIndex = 0 ∧
    (startQuiz c3State c3File).1.currentQuestionIndex = 0 ∧
    (startQuiz c3State c3File).1.showAnswer = false ∧
    (startQuiz c3State c3File).1.skipVotes = [] := by
  have h := (c3_startQuiz_guard_and_success c3State c3File).2 (by decide)
  exact ⟨h.1, h.2.1, h.2.2.1, h.2.2.2.1, h.2.2.2.2.1⟩

end Quiz
